import Mathlib

/-!
# Verification of the Helium `Type` registration subsystem (`src/Engine/Type.cpp`)

A shallow embedding of the type-registration and reference-count-proxy
subsystem of the Helium engine, together with proofs of its specified
properties.

Modelling conventions:
* C++ pointers to heap objects become `Nat` indices into an explicit heap
  (a `List` of records); a nullable pointer becomes `Option Nat`.
  Pointer identity is index equality.
* `HELIUM_ASSERT` / `HELIUM_VERIFY` failures are modelled as a distinguished
  outcome (`Option`-`none`, or an `assertFail` constructor): reaching it
  corresponds to the fatal assertion firing in a checked build.
* The external object system (`GameObject::SetOwner`, `SetName`,
  `RegisterObject`) is not part of this translation unit; its success or
  failure is an oracle (`ObjEnv`), and its successful mutations of the
  template object follow the spec.
* `HELIUM_TRACE` error logging is modelled as a structured log of
  (failing step, type name) pairs.
-/

namespace Helium

/-- The external object system's answer to the three fallible calls made by
`Type::Create` (`GameObject::SetOwner`, `GameObject::SetName`,
`GameObject::RegisterObject`). -/
structure ObjEnv where
  setOwnerOk : Bool
  setNameOk : Bool
  registerOk : Bool
deriving DecidableEq, Repr

/-- The observable state of a `GameObject` template: owning package (by id),
name, and flag bits. -/
structure GameObject where
  owner : Option Nat
  name : String
  flags : Nat
deriving DecidableEq, Repr

/-- Embeds `GameObject::FLAG_DEFAULT_TEMPLATE` bit. -/
def FLAG_DEFAULT_TEMPLATE : Nat := 1

/-- Modelled from the spec: `GameObject::SetOwner` re-owns the template into
the given package; it may fail (oracle), and on success records the new
owner.  (Missing from src/: only its caller `Type::Create` is present.) -/
def setOwner (env : ObjEnv) (g : GameObject) (pkg : Nat) : Bool × GameObject :=
  if env.setOwnerOk then (true, { g with owner := some pkg }) else (false, g)

/-- Modelled from the spec: `GameObject::SetName` renames the template; it may
fail (oracle), and on success records the new name.  (Missing from src/.) -/
def setName (env : ObjEnv) (g : GameObject) (n : String) : Bool × GameObject :=
  if env.setNameOk then (true, { g with name := n }) else (false, g)

/-- Modelled from the spec: `GameObject::SetFlags` sets the given flag bits on
the object.  (Missing from src/.) -/
def setFlags (g : GameObject) (f : Nat) : GameObject :=
  { g with flags := g.flags ||| f }

/-- Modelled from the spec: `GameObject::RegisterObject` registers the template
with the broader object system; it may fail (oracle) and does not mutate the
template's observable fields.  (Missing from src/.) -/
def registerObject (env : ObjEnv) (g : GameObject) : Bool × GameObject :=
  if env.registerOk then (true, g) else (false, g)

/-- One `Type` descriptor (fields of class `Type`): name, parent type
reference (`m_spTypeParent`), template object reference (`m_spTypeTemplate`),
and flag bits (`m_typeFlags`). -/
structure TypeRec where
  m_name : String
  m_spTypeParent : Option Nat
  m_spTypeTemplate : Option GameObject
  m_typeFlags : Nat
deriving DecidableEq, Repr

/-- Embeds `pThisType->GetTypeParent()`: the parent reference of the descriptor at
index `t` in the heap (null if the index is dangling). -/
def getParent (heap : List TypeRec) (t : Nat) : Option Nat :=
  (heap[t]?).bind (·.m_spTypeParent)

/-- Embeds `Type::IsSubtypeOf` (Type.cpp:151-164): walk the parent chain starting at
`pThisType` (inclusive), returning true on the first identity match with
`pType` and false on reaching the null parent.  The C++ loop has no bound;
`fuel` bounds the walk and is irrelevant on any chain that reaches the root
within `fuel` steps. -/
def isSubtypeOfAux (heap : List TypeRec) : Nat → Option Nat → Nat → Bool
  | _, none, _ => false
  | 0, some _, _ => false
  | fuel + 1, some tid, aid =>
    if tid = aid then true else isSubtypeOfAux heap fuel (getParent heap tid) aid

/-- The parent chain starting at the given node (inclusive), truncated at the
root or when `fuel` runs out. -/
def parentChain (heap : List TypeRec) : Nat → Option Nat → List Nat
  | _, none => []
  | 0, some _ => []
  | fuel + 1, some tid => tid :: parentChain heap fuel (getParent heap tid)

/-- The parent chain starting at the given node reaches the root (null parent)
within `fuel` steps: the acyclicity/finiteness premise of the subtype walk. -/
def reachesRoot (heap : List TypeRec) : Nat → Option Nat → Bool
  | _, none => true
  | 0, some _ => false
  | fuel + 1, some tid => reachesRoot heap fuel (getParent heap tid)

/-- Example hierarchy A→B→C used by the spec: index 0 = A (parent B),
index 1 = B (parent C), index 2 = C (root). -/
def heapABC : List TypeRec :=
  [⟨"A", some 1, none, 0⟩, ⟨"B", some 2, none, 0⟩, ⟨"C", none, none, 0⟩]

lemma isSubtypeOfAux_iff_mem_parentChain (heap : List TypeRec) :
    ∀ (fuel : Nat) (start : Option Nat) (aid : Nat),
      reachesRoot heap fuel start = true →
      (isSubtypeOfAux heap fuel start aid = true ↔ aid ∈ parentChain heap fuel start) := by
  intro fuel
  induction fuel with
  | zero =>
    intro start aid h
    cases start with
    | none => simp [isSubtypeOfAux, parentChain]
    | some tid => simp [reachesRoot] at h
  | succ n ih =>
    intro start aid h
    cases start with
    | none => simp [isSubtypeOfAux, parentChain]
    | some tid =>
      simp only [reachesRoot] at h
      by_cases htid : tid = aid
      · subst htid
        simp [isSubtypeOfAux, parentChain]
      · simp only [isSubtypeOfAux, parentChain, if_neg htid, List.mem_cons]
        rw [ih _ _ h]
        constructor
        · exact Or.inr
        · rintro (hc | hc)
          · exact absurd hc.symm htid
          · exact hc

/-! ## Type registry state machine (`Type::Create` / `Find` / `Unregister` / `Shutdown`) -/

/-- The mutable static state of the Type registration system:
`sm_pLookupMap` (null until lazily created; an association list of
name-to-descriptor-index entries models the hash map), the heap of `Type`
descriptors (each `new Type` appends one), `sm_spTypePackage`, and the
static-type reference held by `GameObject` (needed by `Shutdown`). -/
structure TypeSystemState where
  lookupMap : Option (List (String × Nat))
  typeHeap : List TypeRec
  typePackage : Option Nat
  gameObjectStaticType : Option Nat
deriving DecidableEq, Repr

/-- Embeds `LookupMap::Find` on the association list: first entry with the key. -/
def assocFind : List (String × Nat) → String → Option Nat
  | [], _ => none
  | p :: rest, k => if p.1 = k then some p.2 else assocFind rest k

/-- Embeds `LookupMap::Insert`: fails (returns `none`, the `HELIUM_VERIFY` failing)
when the key is already present, otherwise adds the entry. -/
def assocInsert (m : List (String × Nat)) (k : String) (v : Nat) :
    Option (List (String × Nat)) :=
  if (assocFind m k).isSome then none else some (m ++ [(k, v)])

/-- Embeds `LookupMap::Remove`: fails (returns `none`, the `HELIUM_VERIFY` failing)
when the key is absent, otherwise removes the (single) entry with the key. -/
def assocRemove : List (String × Nat) → String → Option (List (String × Nat))
  | [], _ => none
  | p :: rest, k =>
    if p.1 = k then some rest else (assocRemove rest k).map (p :: ·)

/-- Which of `Type::Create`'s three fallible external calls failed
(the step identified by the corresponding `HELIUM_TRACE` message). -/
inductive FailStep
  | setOwnerStep
  | setNameStep
  | registerStep
deriving DecidableEq, Repr

/-- Outcome of `Type::Create`: a fatal assertion (`HELIUM_ASSERT` /
`HELIUM_VERIFY` failure), the null return (`return false;`), or success with
the new descriptor's heap index. -/
inductive CreateOutcome
  | assertFail
  | nullResult
  | success (tid : Nat)
deriving DecidableEq, Repr

/-- Result of `Type::Create`: the outcome, the registry state after the call,
the template object after the call (its pointer is the caller's; `Create`
mutates it in place), and the structured error log (`HELIUM_TRACE` entries,
each identifying the failing step and the type name). -/
structure CreateResult where
  outcome : CreateOutcome
  state : TypeSystemState
  tmpl : Option GameObject
  log : List (FailStep × String)
deriving DecidableEq, Repr

/-- Embeds `Type::Create` (Type.cpp:192-254): assert the preconditions; re-own the
template into the type package, rename it, flag it as the default template,
and register it with the object system, returning null (with a logged error)
if any of the three fallible calls fails; then construct the descriptor,
lazily create the lookup map, and insert the new entry (`HELIUM_VERIFY`:
a duplicate name is a fatal assertion). -/
def typeCreate (env : ObjEnv) (s : TypeSystemState) (name : String)
    (pTypePackage : Option Nat) (pParent : Option Nat)
    (pTemplate : Option GameObject) (flags : Nat) : CreateResult :=
  match pTypePackage, pTemplate with
  | some pkg, some tmpl =>
    if name = "" then ⟨.assertFail, s, some tmpl, []⟩
    else
      let r1 := setOwner env tmpl pkg
      if r1.1 = false then ⟨.nullResult, s, some r1.2, [(.setOwnerStep, name)]⟩
      else
        let r2 := setName env r1.2 name
        if r2.1 = false then ⟨.nullResult, s, some r2.2, [(.setNameStep, name)]⟩
        else
          let tmpl3 := setFlags r2.2 FLAG_DEFAULT_TEMPLATE
          let r3 := registerObject env tmpl3
          if r3.1 = false then ⟨.nullResult, s, some r3.2, [(.registerStep, name)]⟩
          else
            let tid := s.typeHeap.length
            let pType : TypeRec := ⟨name, pParent, some r3.2, flags⟩
            let heap2 := s.typeHeap ++ [pType]
            let m0 := s.lookupMap.getD []
            match assocInsert m0 name tid with
            | none => ⟨.assertFail, { s with typeHeap := heap2 }, some r3.2, []⟩
            | some m2 =>
              ⟨.success tid,
                { s with typeHeap := heap2, lookupMap := some m2 }, some r3.2, []⟩
  | _, _ => ⟨.assertFail, s, pTemplate, []⟩

/-- Embeds `Type::Find` (Type.cpp:278-292): exact-match lookup; null when the lookup
map has not been created or the name is absent. -/
def typeFind (s : TypeSystemState) (typeName : String) : Option Nat :=
  match s.lookupMap with
  | none => none
  | some m => assocFind m typeName

/-- Embeds `Type::Unregister` (Type.cpp:262-271): assert the pointer and the lookup
map, remove the entry keyed by the type's name (`HELIUM_VERIFY`), and release
the descriptor's parent and template references.  `none` models a fatal
assertion. -/
def typeUnregister (s : TypeSystemState) (pType : Option Nat) :
    Option TypeSystemState :=
  match pType with
  | none => none
  | some tid =>
    match s.typeHeap[tid]? with
    | none => none
    | some ty =>
      match s.lookupMap with
      | none => none
      | some m =>
        match assocRemove m ty.m_name with
        | none => none
        | some m2 =>
          some { s with
            lookupMap := some m2,
            typeHeap := s.typeHeap.set tid
              { ty with m_spTypeParent := none, m_spTypeTemplate := none } }

/-- Modelled from the spec: `GameObject::ReleaseStaticType` performs the
engine-specific unregistration of the distinguished root/base type (it is not
a member of the generic type package); when the static type reference is no
longer held it is a no-op.  (Missing from src/: only its caller
`Type::Shutdown` is present.) -/
def releaseStaticType (s : TypeSystemState) : Option TypeSystemState :=
  match s.gameObjectStaticType with
  | none => some s
  | some tid =>
    (typeUnregister s (some tid)).map fun s2 =>
      { s2 with gameObjectStaticType := none }

/-- Embeds `delete sm_pLookupMap; sm_pLookupMap = NULL;` (Type.cpp:344-345). -/
def destroyLookupMap (s : TypeSystemState) : TypeSystemState :=
  { s with lookupMap := none }

/-- Embeds `sm_spTypePackage.Release();` (Type.cpp:348). -/
def releaseTypePackage (s : TypeSystemState) : TypeSystemState :=
  { s with typePackage := none }

/-- Embeds `Type::Shutdown` (Type.cpp:336-351): unregister the distinguished root
type first, then destroy the lookup map, then release the type package
reference. -/
def typeShutdown (s : TypeSystemState) : Option TypeSystemState :=
  (releaseStaticType s).map fun s1 => releaseTypePackage (destroyLookupMap s1)

/-! ## Proxy store (`TypeRefCountSupport`, Type.cpp:16-135) -/

/-- Embeds `TypeRefCountSupport::StaticData`: the proxy pool (modelled by a
fresh-cell counter plus a free list of returned cells) and the active proxy
set (`HELIUM_ENABLE_MEMORY_TRACKING` diagnostics). -/
structure PSStaticData where
  nextCell : Nat
  freeList : List Nat
  activeProxySet : List Nat
deriving DecidableEq, Repr

/-- A freshly constructed `StaticData` (empty pool, empty live set). -/
def psNew : PSStaticData :=
  { nextCell := 0, freeList := [], activeProxySet := [] }

/-- Embeds `TypeRefCountSupport::sm_pStaticData`, null until lazily created. -/
structure ProxyStoreState where
  sm_pStaticData : Option PSStaticData
deriving DecidableEq, Repr

/-- Embeds `ObjectPool::Allocate`: reuse a released cell when one is available,
otherwise hand out a fresh cell (growing the pool). -/
def poolAllocate (sd : PSStaticData) : Nat × PSStaticData :=
  match sd.freeList with
  | [] => (sd.nextCell, { sd with nextCell := sd.nextCell + 1 })
  | c :: rest => (c, { sd with freeList := rest })

/-- Embeds `ObjectPool::Release`: return a cell to the pool's free list. -/
def poolRelease (sd : PSStaticData) (c : Nat) : PSStaticData :=
  { sd with freeList := c :: sd.freeList }

/-- Embeds `TypeRefCountSupport::Allocate` (Type.cpp:44-66): lazily create the
static data if null, allocate a cell from the pool, and `HELIUM_VERIFY`
its insertion into the active proxy set (`none` models the fatal
verification failure on a duplicate). -/
def tAllocate (s : ProxyStoreState) : Option (Nat × ProxyStoreState) :=
  let pStaticData := s.sm_pStaticData.getD psNew
  let r := poolAllocate pStaticData
  if r.1 ∈ r.2.activeProxySet then none
  else
    some (r.1, ⟨some { r.2 with activeProxySet := r.2.activeProxySet ++ [r.1] }⟩)

/-- Embeds `TypeRefCountSupport::Release` (Type.cpp:73-85): assert the proxy and the
static data are non-null, `HELIUM_VERIFY` removal from the active proxy set,
and return the cell to the pool.  `none` models a fatal assertion. -/
def tRelease (s : ProxyStoreState) (pProxy : Option Nat) :
    Option ProxyStoreState :=
  match pProxy with
  | none => none
  | some c =>
    match s.sm_pStaticData with
    | none => none
    | some sd =>
      if c ∈ sd.activeProxySet then
        some ⟨some (poolRelease { sd with
          activeProxySet := sd.activeProxySet.erase c } c)⟩
      else none

/-- Embeds `TypeRefCountSupport::Shutdown` (Type.cpp:90-94): delete the static data
and null the pointer. -/
def tShutdownPS (_ : ProxyStoreState) : ProxyStoreState := ⟨none⟩

/-- Embeds `TypeRefCountSupport::GetActiveProxyCount` (Type.cpp:107-112): assert the
static data and return the size of the active proxy set.  `none` models the
fatal assertion. -/
def tGetActiveProxyCount (s : ProxyStoreState) : Option Nat :=
  s.sm_pStaticData.map (·.activeProxySet.length)

/-- Embeds `TypeRefCountSupport::GetFirstActiveProxy` (Type.cpp:122-128): assert the
static data and produce an accessor to the first live cell (if any).  The
outer `none` models the fatal assertion. -/
def tGetFirstActiveProxy (s : ProxyStoreState) : Option (Option Nat) :=
  s.sm_pStaticData.map (·.activeProxySet.head?)

/-- One proxy-store operation of a client trace. -/
inductive POp
  | alloc
  | release (cell : Nat)
deriving DecidableEq, Repr

/-- Run a trace of proxy-store operations, collecting the cells issued by the
`Allocate` calls in order; `none` when any operation hits a fatal
assertion. -/
def runOps : ProxyStoreState → List POp → Option (ProxyStoreState × List Nat)
  | s, [] => some (s, [])
  | s, POp.alloc :: rest =>
    match tAllocate s with
    | none => none
    | some (c, s2) => (runOps s2 rest).map fun r => (r.1, c :: r.2)
  | s, POp.release c :: rest => (tRelease s (some c)).bind fun s2 => runOps s2 rest

/-- The cells passed to `Release` by a trace, in order. -/
def releasedCells : List POp → List Nat
  | [] => []
  | POp.alloc :: rest => releasedCells rest
  | POp.release c :: rest => c :: releasedCells rest

/-- Invariant tying a `StaticData` to the history of issued and released
cells: the live set is duplicate-free and disjoint from the (duplicate-free)
free list, every known cell is below the fresh counter, each cell's issue
count exceeds its release count exactly when it is live, and the live-set
size balances the history lengths. -/
def psInv (sd : PSStaticData) (issued rel : List Nat) : Prop :=
  sd.activeProxySet.Nodup
  ∧ sd.freeList.Nodup
  ∧ (∀ c ∈ sd.freeList, c ∉ sd.activeProxySet)
  ∧ (∀ c ∈ sd.freeList, c < sd.nextCell)
  ∧ (∀ c ∈ sd.activeProxySet, c < sd.nextCell)
  ∧ (∀ c, issued.count c = rel.count c + (if c ∈ sd.activeProxySet then 1 else 0))
  ∧ sd.activeProxySet.length + rel.length = issued.length

/-! ## Association-list lemmas for the lookup map -/

lemma assocFind_getD_none {s : TypeSystemState} {name : String}
    (h : typeFind s name = none) :
    assocFind (s.lookupMap.getD []) name = none := by
  cases hm : s.lookupMap with
  | none => simp [hm, assocFind]
  | some m => simpa [typeFind, hm] using h

lemma assocFind_append_self (m : List (String × Nat)) (k : String) (v : Nat)
    (h : assocFind m k = none) : assocFind (m ++ [(k, v)]) k = some v := by
  induction m with
  | nil => simp [assocFind]
  | cons p rest ih =>
    by_cases hp : p.1 = k
    · simp [assocFind, hp] at h
    · simp only [List.cons_append, assocFind, if_neg hp] at h ⊢
      exact ih h

lemma assocFind_none_of_not_mem_keys (m : List (String × Nat)) (k : String)
    (h : k ∉ m.map Prod.fst) : assocFind m k = none := by
  induction m with
  | nil => rfl
  | cons p rest ih =>
    simp only [List.map_cons, List.mem_cons] at h
    push_neg at h
    have hp : ¬p.1 = k := fun hp => h.1 hp.symm
    simp only [assocFind, if_neg hp]
    exact ih h.2

lemma assocRemove_exists {m : List (String × Nat)} {k : String}
    (h : (assocFind m k).isSome = true) : ∃ m2, assocRemove m k = some m2 := by
  induction m with
  | nil => simp [assocFind] at h
  | cons p rest ih =>
    by_cases hp : p.1 = k
    · exact ⟨rest, by simp [assocRemove, hp]⟩
    · simp only [assocFind, if_neg hp] at h
      obtain ⟨m2, hm2⟩ := ih h
      exact ⟨p :: m2, by simp [assocRemove, hp, hm2]⟩

lemma assocFind_assocRemove_self {m : List (String × Nat)} {k : String}
    (hnd : (m.map Prod.fst).Nodup) :
    ∀ {m2}, assocRemove m k = some m2 → assocFind m2 k = none := by
  induction m with
  | nil => intro m2 h; simp [assocRemove] at h
  | cons p rest ih =>
    intro m2 h
    simp only [List.map_cons, List.nodup_cons] at hnd
    by_cases hp : p.1 = k
    · simp only [assocRemove, if_pos hp] at h
      obtain rfl := Option.some.inj h
      exact assocFind_none_of_not_mem_keys _ _ (hp ▸ hnd.1)
    · simp only [assocRemove, if_neg hp] at h
      cases hrem : assocRemove rest k with
      | none => rw [hrem] at h; simp at h
      | some m3 =>
        rw [hrem] at h
        simp only [Option.map_some'] at h
        obtain rfl := Option.some.inj h
        simp only [assocFind, if_neg hp]
        exact ih hnd.2 hrem

lemma assocFind_assocRemove_ne {m : List (String × Nat)} {k k2 : String}
    (hne : k2 ≠ k) :
    ∀ {m2}, assocRemove m k = some m2 → assocFind m2 k2 = assocFind m k2 := by
  induction m with
  | nil => intro m2 h; simp [assocRemove] at h
  | cons p rest ih =>
    intro m2 h
    by_cases hp : p.1 = k
    · simp only [assocRemove, if_pos hp] at h
      obtain rfl := Option.some.inj h
      have hp2 : ¬p.1 = k2 := fun hh => hne ((hh ▸ hp).symm ▸ rfl)
      simp [assocFind, if_neg hp2]
    · simp only [assocRemove, if_neg hp] at h
      cases hrem : assocRemove rest k with
      | none => rw [hrem] at h; simp at h
      | some m3 =>
        rw [hrem] at h
        simp only [Option.map_some'] at h
        obtain rfl := Option.some.inj h
        simp only [assocFind]
        by_cases hpk2 : p.1 = k2
        · simp [hpk2]
        · simp only [if_neg hpk2]
          exact ih hrem

/-! ## Theorems -/

/-- C1: for every type `T`, `T.IsSubtypeOf(T)` is true; for every type with an
acyclic (root-reaching) parent chain, `T.IsSubtypeOf(A)` is true iff `A` is
identical (by reference) to some node on the parent chain starting at `T`
inclusive, false when the root is reached without a match; and in the chain
A→B→C, `A.IsSubtypeOf(C)` is true while `C.IsSubtypeOf(A)` is false. -/
theorem c1_isSubtypeOf_reflexive_and_chain (heap : List TypeRec) (fuel t : Nat)
    (hacyc : reachesRoot heap fuel (some t) = true) :
    isSubtypeOfAux heap fuel (some t) t = true
    ∧ (∀ aid, isSubtypeOfAux heap fuel (some t) aid = true ↔
        aid ∈ parentChain heap fuel (some t))
    ∧ isSubtypeOfAux heapABC 3 (some 0) 2 = true
    ∧ isSubtypeOfAux heapABC 3 (some 2) 0 = false := by
  refine ⟨?_, fun aid => isSubtypeOfAux_iff_mem_parentChain heap fuel (some t) aid hacyc,
    by decide, by decide⟩
  cases fuel with
  | zero => simp [reachesRoot] at hacyc
  | succ n => simp [isSubtypeOfAux]

/-- Witness for C1 at the concrete A→B→C hierarchy. -/
theorem c1_witness :
    isSubtypeOfAux heapABC 3 (some 0) 0 = true
    ∧ (isSubtypeOfAux heapABC 3 (some 0) 2 = true ↔ 2 ∈ parentChain heapABC 3 (some 0))
    ∧ isSubtypeOfAux heapABC 3 (some 0) 2 = true
    ∧ isSubtypeOfAux heapABC 3 (some 2) 0 = false := by
  have h := c1_isSubtypeOf_reflexive_and_chain heapABC 3 0 (by decide)
  exact ⟨h.1, h.2.1 2, h.2.2.1, h.2.2.2⟩

/-- C2: under `Create`'s asserted preconditions, the caller-visible failures
are exactly the three fallible steps (template re-owning, renaming,
object-system registration): the result is null exactly when one of them
fails, the log then identifies the failing step and the type name, and on
success the returned descriptor carries the given name, parent, template, and
flags. -/
theorem c2_typeCreate_failure_and_success (env : ObjEnv) (s : TypeSystemState)
    (name : String) (pkg : Nat) (pParent : Option Nat) (tmpl : GameObject)
    (flags : Nat) (hname : name ≠ "") (hdup : typeFind s name = none) :
    (typeCreate env s name (some pkg) pParent (some tmpl) flags).outcome
      = (if (env.setOwnerOk && env.setNameOk && env.registerOk) = true
          then CreateOutcome.success s.typeHeap.length
          else CreateOutcome.nullResult)
    ∧ (typeCreate env s name (some pkg) pParent (some tmpl) flags).log
      = (if env.setOwnerOk = false then [(FailStep.setOwnerStep, name)]
         else if env.setNameOk = false then [(FailStep.setNameStep, name)]
         else if env.registerOk = false then [(FailStep.registerStep, name)]
         else [])
    ∧ (typeCreate env s name (some pkg) pParent
          (some tmpl) flags).state.typeHeap[s.typeHeap.length]?
      = (if (env.setOwnerOk && env.setNameOk && env.registerOk) = true
          then some ⟨name, pParent,
            (typeCreate env s name (some pkg) pParent (some tmpl) flags).tmpl,
            flags⟩
          else none) := by
  have hfind := assocFind_getD_none hdup
  obtain ⟨o1, o2, o3⟩ := env
  cases o1 <;> cases o2 <;> cases o3 <;>
    simp [typeCreate, setOwner, setName, setFlags, registerObject, hname,
      assocInsert, hfind, List.getElem?_concat_length]

/-- Witness for C2: creating "Object" in the empty registry with all three
external steps succeeding. -/
theorem c2_witness :
    (typeCreate ⟨true, true, true⟩ ⟨none, [], some 7, none⟩ "Object" (some 7)
        none (some ⟨none, "", 0⟩) 0).outcome
      = (if ((true : Bool) && true && true) = true
          then CreateOutcome.success (List.length ([] : List TypeRec))
          else CreateOutcome.nullResult)
    ∧ (typeCreate ⟨true, true, true⟩ ⟨none, [], some 7, none⟩ "Object" (some 7)
        none (some ⟨none, "", 0⟩) 0).log
      = (if (true : Bool) = false then [(FailStep.setOwnerStep, "Object")]
         else if (true : Bool) = false then [(FailStep.setNameStep, "Object")]
         else if (true : Bool) = false then [(FailStep.registerStep, "Object")]
         else [])
    ∧ (typeCreate ⟨true, true, true⟩ ⟨none, [], some 7, none⟩ "Object" (some 7)
        none (some ⟨none, "", 0⟩) 0).state.typeHeap[List.length ([] : List TypeRec)]?
      = (if ((true : Bool) && true && true) = true
          then some ⟨"Object", none,
            (typeCreate ⟨true, true, true⟩ ⟨none, [], some 7, none⟩ "Object"
              (some 7) none (some ⟨none, "", 0⟩) 0).tmpl, 0⟩
          else none) :=
  c2_typeCreate_failure_and_success ⟨true, true, true⟩ ⟨none, [], some 7, none⟩
    "Object" 7 none ⟨none, "", 0⟩ 0 (by decide) (by decide)

/-- C3: when `Type::Create` returns the null result, the registry state is
left entirely unchanged — no entry inserted, no descriptor constructed, and
`Find` afterwards returns what it returned before the call. -/
theorem c3_typeCreate_nullResult_frame (env : ObjEnv) (s : TypeSystemState)
    (name : String) (pkgOpt : Option Nat) (pParent : Option Nat)
    (tmplOpt : Option GameObject) (flags : Nat)
    (h : (typeCreate env s name pkgOpt pParent tmplOpt flags).outcome
      = CreateOutcome.nullResult) :
    (typeCreate env s name pkgOpt pParent tmplOpt flags).state = s
    ∧ ∀ n, typeFind (typeCreate env s name pkgOpt pParent tmplOpt flags).state n
        = typeFind s n := by
  suffices hs : (typeCreate env s name pkgOpt pParent tmplOpt flags).state = s by
    exact ⟨hs, fun n => by rw [hs]⟩
  obtain ⟨o1, o2, o3⟩ := env
  cases pkgOpt with
  | none => cases tmplOpt <;> simp [typeCreate] at h
  | some pkg =>
    cases tmplOpt with
    | none => simp [typeCreate] at h
    | some tmpl =>
      by_cases hn : name = ""
      · simp [typeCreate, hn] at h
      · cases hins : assocInsert (s.lookupMap.getD []) name s.typeHeap.length <;>
          cases o1 <;> cases o2 <;> cases o3 <;>
          simp [typeCreate, setOwner, setName, setFlags, registerObject, hn,
            hins] at h ⊢

/-- Witness for C3: a `Create` whose template re-owning step fails leaves the
populated registry untouched. -/
theorem c3_witness :
    (typeCreate ⟨false, true, true⟩
        ⟨some [("Object", 0)], [⟨"Object", none, none, 0⟩], some 7, none⟩
        "Actor" (some 7) (some 0) (some ⟨none, "", 0⟩) 0).state
      = ⟨some [("Object", 0)], [⟨"Object", none, none, 0⟩], some 7, none⟩
    ∧ typeFind
        (typeCreate ⟨false, true, true⟩
          ⟨some [("Object", 0)], [⟨"Object", none, none, 0⟩], some 7, none⟩
          "Actor" (some 7) (some 0) (some ⟨none, "", 0⟩) 0).state "Actor"
        = typeFind
            ⟨some [("Object", 0)], [⟨"Object", none, none, 0⟩], some 7, none⟩
            "Actor" := by
  have h := c3_typeCreate_nullResult_frame ⟨false, true, true⟩
    ⟨some [("Object", 0)], [⟨"Object", none, none, 0⟩], some 7, none⟩
    "Actor" (some 7) (some 0) (some ⟨none, "", 0⟩) 0 (by decide)
  exact ⟨h.1, h.2 "Actor"⟩

lemma typeCreate_success_state {env : ObjEnv} {s : TypeSystemState}
    {name : String} {pkgOpt : Option Nat} {pParent : Option Nat}
    {tmplOpt : Option GameObject} {flags : Nat} {tid : Nat}
    (hsucc : (typeCreate env s name pkgOpt pParent tmplOpt flags).outcome
      = CreateOutcome.success tid) :
    tid = s.typeHeap.length
    ∧ assocFind (s.lookupMap.getD []) name = none
    ∧ (typeCreate env s name pkgOpt pParent tmplOpt flags).state.lookupMap
      = some ((s.lookupMap.getD []) ++ [(name, tid)]) := by
  obtain ⟨o1, o2, o3⟩ := env
  cases pkgOpt with
  | none => cases tmplOpt <;> simp [typeCreate] at hsucc
  | some pkg =>
    cases tmplOpt with
    | none => simp [typeCreate] at hsucc
    | some tmpl =>
      by_cases hn : name = ""
      · simp [typeCreate, hn] at hsucc
      · cases o1 with
        | false => simp [typeCreate, setOwner, hn] at hsucc
        | true =>
          cases o2 with
          | false => simp [typeCreate, setOwner, setName, hn] at hsucc
          | true =>
            cases o3 with
            | false =>
              simp [typeCreate, setOwner, setName, setFlags, registerObject,
                hn] at hsucc
            | true =>
              cases hins : assocInsert (s.lookupMap.getD []) name
                  s.typeHeap.length with
              | none =>
                simp [typeCreate, setOwner, setName, setFlags, registerObject,
                  hn, hins] at hsucc
              | some m2 =>
                have hlen : s.typeHeap.length = tid := by
                  simpa [typeCreate, setOwner, setName, setFlags,
                    registerObject, hn, hins] using hsucc
                have hf : (assocFind (s.lookupMap.getD []) name).isSome
                    = false := by
                  by_contra hcon
                  simp only [Bool.not_eq_false] at hcon
                  simp [assocInsert, hcon] at hins
                have hm2 : (s.lookupMap.getD []) ++ [(name, s.typeHeap.length)]
                    = m2 := by
                  simpa [assocInsert, hf] using hins
                refine ⟨hlen.symm, Option.not_isSome_iff_eq_none.mp ?_, ?_⟩
                · simp [hf]
                · simp only [typeCreate, setOwner, setName, setFlags,
                    registerObject, hn, hins, if_neg, Bool.false_eq_true,
                    ite_false]
                  simp [hins, ← hm2, hlen]

lemma releaseStaticType_static_none {s s1 : TypeSystemState}
    (h : releaseStaticType s = some s1) : s1.gameObjectStaticType = none := by
  cases hg : s.gameObjectStaticType with
  | none =>
    simp only [releaseStaticType, hg] at h
    obtain rfl := Option.some.inj h
    exact hg
  | some tid =>
    simp only [releaseStaticType, hg, Option.map_eq_some'] at h
    obtain ⟨s2, _, hs2⟩ := h
    rw [← hs2]

lemma typeShutdown_fields {s s3 : TypeSystemState} (h : typeShutdown s = some s3) :
    s3.lookupMap = none ∧ s3.typePackage = none
    ∧ s3.gameObjectStaticType = none := by
  simp only [typeShutdown, Option.map_eq_some'] at h
  obtain ⟨s1, h1, hs3⟩ := h
  have hg := releaseStaticType_static_none h1
  refine ⟨?_, ?_, ?_⟩ <;> rw [← hs3] <;>
    simp [releaseTypePackage, destroyLookupMap, hg]

/-- C4: after a successful `Create` with name `n`, `Find(n)` returns exactly
the descriptor `Create` returned; and `Find` of any unregistered name returns
empty — before the registry has been created, after it has been populated,
and after `Shutdown` — without failing. -/
theorem c4_typeFind_correct (env : ObjEnv) (s : TypeSystemState) (name : String)
    (pkgOpt : Option Nat) (pParent : Option Nat) (tmplOpt : Option GameObject)
    (flags : Nat) (tid : Nat)
    (hsucc : (typeCreate env s name pkgOpt pParent tmplOpt flags).outcome
      = CreateOutcome.success tid) :
    typeFind (typeCreate env s name pkgOpt pParent tmplOpt flags).state name
      = some tid
    ∧ (∀ s2 n, s2.lookupMap = none → typeFind s2 n = none)
    ∧ (∀ s2 n m, s2.lookupMap = some m → n ∉ m.map Prod.fst →
        typeFind s2 n = none)
    ∧ (∀ s2 s3, typeShutdown s2 = some s3 → ∀ n, typeFind s3 n = none) := by
  obtain ⟨hlen, hf, hmap⟩ := typeCreate_success_state hsucc
  refine ⟨?_, ?_, ?_, ?_⟩
  · simp only [typeFind, hmap]
    exact assocFind_append_self _ _ _ hf
  · intro s2 n h2
    simp [typeFind, h2]
  · intro s2 n m h2 hnm
    simp only [typeFind, h2]
    exact assocFind_none_of_not_mem_keys m n hnm
  · intro s2 s3 h23 n
    obtain ⟨hl, _, _⟩ := typeShutdown_fields h23
    simp [typeFind, hl]

/-- Witness for C4: creating "Object" in the empty registry and looking it
up; missing names before creation, in a populated registry, and after
shutdown. -/
theorem c4_witness :
    typeFind (typeCreate ⟨true, true, true⟩ ⟨none, [], some 7, none⟩ "Object"
        (some 7) none (some ⟨none, "", 0⟩) 0).state "Object" = some 0
    ∧ typeFind ⟨none, [], some 7, none⟩ "Missing" = none
    ∧ typeFind ⟨some [("Object", 0)], [⟨"Object", none, none, 0⟩], some 7, none⟩
        "Missing" = none
    ∧ typeFind ⟨none, [⟨"Object", none, none, 0⟩], none, none⟩ "Object"
        = none := by
  have h := c4_typeFind_correct ⟨true, true, true⟩ ⟨none, [], some 7, none⟩
    "Object" (some 7) none (some ⟨none, "", 0⟩) 0 0 (by decide)
  refine ⟨h.1, h.2.1 ⟨none, [], some 7, none⟩ "Missing" rfl,
    h.2.2.1 ⟨some [("Object", 0)], [⟨"Object", none, none, 0⟩], some 7, none⟩
      "Missing" [("Object", 0)] rfl (by decide),
    h.2.2.2 ⟨some [("Object", 0)], [⟨"Object", none, none, 0⟩], some 7, some 0⟩
      ⟨none, [⟨"Object", none, none, 0⟩], none, none⟩ (by decide) "Object"⟩

/-- C9: `Shutdown` is the composition, in order, of the engine-specific
unregistration of the distinguished root type, destruction of the registry
mapping (leaving it null), and release of the shared type-package reference;
and a second `Shutdown` without intervening registrations operates on the
already-null registry and already-released package without failing, leaving
the state of one `Shutdown`. -/
theorem c9_typeShutdown_order_and_double (s : TypeSystemState) :
    typeShutdown s = (releaseStaticType s).map
        (fun s1 => releaseTypePackage (destroyLookupMap s1))
    ∧ ∀ s2, typeShutdown s = some s2 →
        s2.lookupMap = none ∧ s2.typePackage = none
        ∧ typeShutdown s2 = some s2 := by
  refine ⟨rfl, fun s2 h => ?_⟩
  obtain ⟨hl, hp, hg⟩ := typeShutdown_fields h
  refine ⟨hl, hp, ?_⟩
  cases s2 with
  | mk lm th tp g =>
    simp only at hl hp hg
    subst hl; subst hp; subst hg
    simp [typeShutdown, releaseStaticType, destroyLookupMap, releaseTypePackage]

/-- Witness for C9: shutting down a registry holding the root type, then
shutting down again. -/
theorem c9_witness :
    typeShutdown ⟨some [("Object", 0)], [⟨"Object", none, none, 0⟩], some 7, some 0⟩
      = (releaseStaticType
          ⟨some [("Object", 0)], [⟨"Object", none, none, 0⟩], some 7, some 0⟩).map
        (fun s1 => releaseTypePackage (destroyLookupMap s1))
    ∧ ((⟨none, [⟨"Object", none, none, 0⟩], none, none⟩ : TypeSystemState).lookupMap
        = none
      ∧ (⟨none, [⟨"Object", none, none, 0⟩], none, none⟩ : TypeSystemState).typePackage
        = none
      ∧ typeShutdown ⟨none, [⟨"Object", none, none, 0⟩], none, none⟩
        = some ⟨none, [⟨"Object", none, none, 0⟩], none, none⟩) := by
  have h := c9_typeShutdown_order_and_double
    ⟨some [("Object", 0)], [⟨"Object", none, none, 0⟩], some 7, some 0⟩
  exact ⟨h.1, h.2 ⟨none, [⟨"Object", none, none, 0⟩], none, none⟩ (by decide)⟩

/-- C7: `Create` with a name already present in the registry (the external
steps succeeding) hits the fatal verification path rather than silently
replacing or duplicating the entry (the mapping is left as it was); and
`Create` asserts a non-empty name, a non-null owning package, and a non-null
template object. -/
theorem c7_typeCreate_duplicate_and_preconditions (env : ObjEnv)
    (s : TypeSystemState) (name : String) (pkg : Nat) (pParent : Option Nat)
    (tmpl : GameObject) (flags : Nat)
    (ho : env.setOwnerOk = true) (hn2 : env.setNameOk = true)
    (hr : env.registerOk = true) (hname : name ≠ "")
    (hdup : (typeFind s name).isSome = true) :
    (typeCreate env s "" (some pkg) pParent (some tmpl) flags).outcome
      = CreateOutcome.assertFail
    ∧ (typeCreate env s name none pParent (some tmpl) flags).outcome
      = CreateOutcome.assertFail
    ∧ (typeCreate env s name (some pkg) pParent none flags).outcome
      = CreateOutcome.assertFail
    ∧ (typeCreate env s name (some pkg) pParent (some tmpl) flags).outcome
      = CreateOutcome.assertFail
    ∧ (typeCreate env s name (some pkg) pParent (some tmpl) flags).state.lookupMap
      = s.lookupMap := by
  obtain ⟨o1, o2, o3⟩ := env
  simp only at ho hn2 hr
  subst ho; subst hn2; subst hr
  cases hm : s.lookupMap with
  | none => simp [typeFind, hm] at hdup
  | some m =>
    simp only [typeFind, hm] at hdup
    refine ⟨by simp [typeCreate], by simp [typeCreate], by simp [typeCreate],
      ?_, ?_⟩ <;>
      simp [typeCreate, setOwner, setName, setFlags, registerObject, hname,
        assocInsert, hm, hdup]

/-- Witness for C7: a second `Create` of "Object" in a registry already
holding "Object". -/
theorem c7_witness :
    (typeCreate ⟨true, true, true⟩
        ⟨some [("Object", 0)], [⟨"Object", none, none, 0⟩], some 7, none⟩
        "" (some 7) none (some ⟨none, "", 0⟩) 0).outcome
      = CreateOutcome.assertFail
    ∧ (typeCreate ⟨true, true, true⟩
        ⟨some [("Object", 0)], [⟨"Object", none, none, 0⟩], some 7, none⟩
        "Object" none none (some ⟨none, "", 0⟩) 0).outcome
      = CreateOutcome.assertFail
    ∧ (typeCreate ⟨true, true, true⟩
        ⟨some [("Object", 0)], [⟨"Object", none, none, 0⟩], some 7, none⟩
        "Object" (some 7) none none 0).outcome
      = CreateOutcome.assertFail
    ∧ (typeCreate ⟨true, true, true⟩
        ⟨some [("Object", 0)], [⟨"Object", none, none, 0⟩], some 7, none⟩
        "Object" (some 7) none (some ⟨none, "", 0⟩) 0).outcome
      = CreateOutcome.assertFail
    ∧ (typeCreate ⟨true, true, true⟩
        ⟨some [("Object", 0)], [⟨"Object", none, none, 0⟩], some 7, none⟩
        "Object" (some 7) none (some ⟨none, "", 0⟩) 0).state.lookupMap
      = (⟨some [("Object", 0)], [⟨"Object", none, none, 0⟩], some 7, none⟩
          : TypeSystemState).lookupMap :=
  c7_typeCreate_duplicate_and_preconditions ⟨true, true, true⟩
    ⟨some [("Object", 0)], [⟨"Object", none, none, 0⟩], some 7, none⟩
    "Object" 7 none ⟨none, "", 0⟩ 0 rfl rfl rfl (by decide) (by decide)

/-- C8: `Unregister(pType)` removes exactly the registry entry keyed by the
type's name and nulls the descriptor's parent and template references,
leaving every other registry entry and every other descriptor unchanged. -/
theorem c8_typeUnregister_exact_removal (s : TypeSystemState) (tid : Nat)
    (ty : TypeRec) (m : List (String × Nat))
    (hheap : s.typeHeap[tid]? = some ty)
    (hmap : s.lookupMap = some m)
    (hnodup : (m.map Prod.fst).Nodup)
    (hreg : (assocFind m ty.m_name).isSome = true) :
    (typeUnregister s (some tid)).isSome = true
    ∧ ∀ s2, typeUnregister s (some tid) = some s2 →
        typeFind s2 ty.m_name = none
        ∧ (∀ n, n ≠ ty.m_name → typeFind s2 n = typeFind s n)
        ∧ s2.typeHeap[tid]?
          = some { ty with m_spTypeParent := none, m_spTypeTemplate := none }
        ∧ (∀ j, j ≠ tid → s2.typeHeap[j]? = s.typeHeap[j]?) := by
  obtain ⟨m2, hm2⟩ := assocRemove_exists hreg
  have hcomp : typeUnregister s (some tid)
      = some
        { s with
          lookupMap := some m2,
          typeHeap := s.typeHeap.set tid
            ({ ty with m_spTypeParent := none, m_spTypeTemplate := none }) } := by
    simp [typeUnregister, hheap, hmap, hm2]
  refine ⟨by simp [hcomp], fun s2 h2 => ?_⟩
  rw [hcomp] at h2
  obtain rfl := Option.some.inj h2
  have htid : tid < s.typeHeap.length := by
    by_contra hlt
    push_neg at hlt
    rw [List.getElem?_eq_none hlt] at hheap
    cases hheap
  refine ⟨?_, ?_, ?_, ?_⟩
  · simp only [typeFind]
    exact assocFind_assocRemove_self hnodup hm2
  · intro n hn
    simp only [typeFind, hmap]
    exact assocFind_assocRemove_ne hn hm2
  · simp [List.getElem?_set, htid]
  · intro j hj
    exact List.getElem?_set_ne (Ne.symm hj)

/-- Witness for C8: unregistering "Player" from a registry holding "Actor"
and "Player" leaves "Actor" resolving to the same descriptor. -/
theorem c8_witness :
    (typeUnregister
        ⟨some [("Actor", 0), ("Player", 1)],
          [⟨"Actor", none, none, 0⟩, ⟨"Player", some 0, none, 0⟩], some 7, none⟩
        (some 1)).isSome = true
    ∧ (typeFind
        ⟨some [("Actor", 0)],
          [⟨"Actor", none, none, 0⟩, ⟨"Player", none, none, 0⟩], some 7, none⟩
        "Player" = none
      ∧ typeFind
          ⟨some [("Actor", 0)],
            [⟨"Actor", none, none, 0⟩, ⟨"Player", none, none, 0⟩], some 7, none⟩
          "Actor"
        = typeFind
            ⟨some [("Actor", 0), ("Player", 1)],
              [⟨"Actor", none, none, 0⟩, ⟨"Player", some 0, none, 0⟩], some 7,
              none⟩ "Actor"
      ∧ (⟨some [("Actor", 0)],
            [⟨"Actor", none, none, 0⟩, ⟨"Player", none, none, 0⟩], some 7, none⟩
            : TypeSystemState).typeHeap[1]?
        = some { (⟨"Player", some 0, none, 0⟩ : TypeRec) with
            m_spTypeParent := none, m_spTypeTemplate := none }
      ∧ (⟨some [("Actor", 0)],
            [⟨"Actor", none, none, 0⟩, ⟨"Player", none, none, 0⟩], some 7, none⟩
            : TypeSystemState).typeHeap[0]?
        = (⟨some [("Actor", 0), ("Player", 1)],
            [⟨"Actor", none, none, 0⟩, ⟨"Player", some 0, none, 0⟩], some 7,
            none⟩ : TypeSystemState).typeHeap[0]?) := by
  have h := c8_typeUnregister_exact_removal
    ⟨some [("Actor", 0), ("Player", 1)],
      [⟨"Actor", none, none, 0⟩, ⟨"Player", some 0, none, 0⟩], some 7, none⟩
    1 ⟨"Player", some 0, none, 0⟩ [("Actor", 0), ("Player", 1)]
    (by decide) rfl (by decide) (by decide)
  have h2 := h.2
    ⟨some [("Actor", 0)],
      [⟨"Actor", none, none, 0⟩, ⟨"Player", none, none, 0⟩], some 7, none⟩
    (by decide)
  exact ⟨h.1, h2.1, h2.2.1 "Actor" (by decide), h2.2.2.1,
    h2.2.2.2 0 (by decide)⟩

/-- C10: `Create` may mutate the template object even when it returns the
null result: the owner is already set when the rename step fails, and owner,
name, and the default-template flag are all set when the registration step
fails; only the registry is left untouched — the template is not rolled
back. -/
theorem c10_typeCreate_template_not_rolled_back (s : TypeSystemState)
    (name : String) (pkg : Nat) (pParent : Option Nat) (tmpl : GameObject)
    (flags : Nat) (b3 : Bool) (hname : name ≠ "") :
    ((typeCreate ⟨true, false, b3⟩ s name (some pkg) pParent (some tmpl)
        flags).outcome = CreateOutcome.nullResult
      ∧ (typeCreate ⟨true, false, b3⟩ s name (some pkg) pParent (some tmpl)
          flags).tmpl = some { tmpl with owner := some pkg }
      ∧ (typeCreate ⟨true, false, b3⟩ s name (some pkg) pParent (some tmpl)
          flags).state = s)
    ∧ ((typeCreate ⟨true, true, false⟩ s name (some pkg) pParent (some tmpl)
        flags).outcome = CreateOutcome.nullResult
      ∧ (typeCreate ⟨true, true, false⟩ s name (some pkg) pParent (some tmpl)
          flags).tmpl
        = some { tmpl with owner := some pkg, name := name, flags := tmpl.flags ||| FLAG_DEFAULT_TEMPLATE }
      ∧ (typeCreate ⟨true, true, false⟩ s name (some pkg) pParent (some tmpl)
          flags).state = s) := by
  refine ⟨⟨?_, ?_, ?_⟩, ⟨?_, ?_, ?_⟩⟩ <;>
    simp [typeCreate, setOwner, setName, setFlags, registerObject, hname]

/-- Witness for C10 at a concrete failing `Create`. -/
theorem c10_witness :
    ((typeCreate ⟨true, false, true⟩ ⟨none, [], some 7, none⟩ "Object" (some 7)
        none (some ⟨none, "", 0⟩) 0).outcome = CreateOutcome.nullResult
      ∧ (typeCreate ⟨true, false, true⟩ ⟨none, [], some 7, none⟩ "Object"
          (some 7) none (some ⟨none, "", 0⟩) 0).tmpl
        = some { (⟨none, "", 0⟩ : GameObject) with owner := some 7 }
      ∧ (typeCreate ⟨true, false, true⟩ ⟨none, [], some 7, none⟩ "Object"
          (some 7) none (some ⟨none, "", 0⟩) 0).state
        = ⟨none, [], some 7, none⟩)
    ∧ ((typeCreate ⟨true, true, false⟩ ⟨none, [], some 7, none⟩ "Object"
        (some 7) none (some ⟨none, "", 0⟩) 0).outcome
        = CreateOutcome.nullResult
      ∧ (typeCreate ⟨true, true, false⟩ ⟨none, [], some 7, none⟩ "Object"
          (some 7) none (some ⟨none, "", 0⟩) 0).tmpl
        = some { (⟨none, "", 0⟩ : GameObject) with owner := some 7, name := "Object", flags := (0 : Nat) ||| FLAG_DEFAULT_TEMPLATE }
      ∧ (typeCreate ⟨true, true, false⟩ ⟨none, [], some 7, none⟩ "Object"
          (some 7) none (some ⟨none, "", 0⟩) 0).state
        = ⟨none, [], some 7, none⟩) :=
  c10_typeCreate_template_not_rolled_back ⟨none, [], some 7, none⟩ "Object" 7
    none ⟨none, "", 0⟩ 0 true (by decide)

/-- C6: after `TypeRefCountSupport::Shutdown` has destroyed the static data,
`Release`, `GetActiveProxyCount` and `GetFirstActiveProxy` all hit the fatal
assertion on the null static data, and `Allocate` does not hand out a cell
from the destroyed pool: it lazily builds a fresh `StaticData` and issues its
first cell, regardless of what the destroyed pool held. -/
theorem c6_proxyStore_use_after_shutdown (s : ProxyStoreState) (c : Nat) :
    tRelease (tShutdownPS s) (some c) = none
    ∧ tGetActiveProxyCount (tShutdownPS s) = none
    ∧ tGetFirstActiveProxy (tShutdownPS s) = none
    ∧ tAllocate (tShutdownPS s)
      = some (0, ⟨some { nextCell := 1, freeList := [], activeProxySet := [0] }⟩) := by
  refine ⟨rfl, rfl, rfl, ?_⟩
  simp [tAllocate, tShutdownPS, poolAllocate, psNew]

lemma count_alloc (A issued rel : List Nat) (x : Nat) (hx : x ∉ A)
    (hcnt : ∀ c, issued.count c = rel.count c + (if c ∈ A then 1 else 0)) :
    ∀ c, (issued ++ [x]).count c
      = rel.count c + (if c ∈ A ++ [x] then 1 else 0) := by
  intro c
  have hbase := hcnt c
  rw [List.count_append, List.count_singleton']
  by_cases hc : x = c
  · have hcA : c ∉ A := fun hm => hx (by rw [hc]; exact hm)
    rw [if_neg hcA] at hbase
    rw [if_pos hc, if_pos (List.mem_append.mpr (Or.inr (List.mem_singleton.mpr hc.symm)))]
    omega
  · rw [if_neg hc]
    by_cases hca : c ∈ A
    · rw [if_pos hca] at hbase
      rw [if_pos (List.mem_append.mpr (Or.inl hca))]
      omega
    · rw [if_neg hca] at hbase
      rw [if_neg (fun hm => (List.mem_append.mp hm).elim hca
        (fun hs => hc (List.mem_singleton.mp hs).symm))]
      omega

lemma count_release (A issued rel : List Nat) (x : Nat) (hnd : A.Nodup)
    (hx : x ∈ A)
    (hcnt : ∀ c, issued.count c = rel.count c + (if c ∈ A then 1 else 0)) :
    ∀ c, issued.count c
      = (rel ++ [x]).count c + (if c ∈ A.erase x then 1 else 0) := by
  intro c
  have hbase := hcnt c
  rw [List.count_append, List.count_singleton']
  by_cases hc : x = c
  · have hcA : c ∈ A := by rw [← hc]; exact hx
    rw [if_pos hcA] at hbase
    rw [if_pos hc, if_neg (fun hm => (hnd.mem_erase_iff.mp hm).1 hc.symm)]
    omega
  · rw [if_neg hc]
    by_cases hca : c ∈ A
    · rw [if_pos hca] at hbase
      rw [if_pos (hnd.mem_erase_iff.mpr ⟨fun hq => hc hq.symm, hca⟩)]
      omega
    · rw [if_neg hca] at hbase
      rw [if_neg (fun hm => hca (hnd.mem_erase_iff.mp hm).2)]
      omega

lemma psInv_alloc {sd : PSStaticData} {issued rel : List Nat}
    (h : psInv sd issued rel) :
    ∃ c sd2, tAllocate ⟨some sd⟩ = some (c, ⟨some sd2⟩)
      ∧ psInv sd2 (issued ++ [c]) rel := by
  obtain ⟨hnd, hfnd, hdisj, hfbnd, habnd, hcnt, hlen⟩ := h
  cases hfl : sd.freeList with
  | nil =>
    have hnot : sd.nextCell ∉ sd.activeProxySet := fun hc =>
      lt_irrefl _ (habnd _ hc)
    refine ⟨sd.nextCell,
      { sd with nextCell := sd.nextCell + 1, activeProxySet := sd.activeProxySet ++ [sd.nextCell] },
      ?_, ?_, ?_, ?_, ?_, ?_, ?_, ?_⟩
    · simp [tAllocate, poolAllocate, hfl, hnot]
    · rw [List.nodup_append]
      exact ⟨hnd, List.nodup_singleton _,
        fun a ha hb => hnot ((List.mem_singleton.mp hb) ▸ ha)⟩
    · exact hfnd
    · intro c hc
      rw [show ({ sd with nextCell := sd.nextCell + 1, activeProxySet := sd.activeProxySet ++ [sd.nextCell] } : PSStaticData).freeList = sd.freeList from rfl, hfl] at hc
      exact absurd hc (List.not_mem_nil c)
    · intro c hc
      rw [show ({ sd with nextCell := sd.nextCell + 1, activeProxySet := sd.activeProxySet ++ [sd.nextCell] } : PSStaticData).freeList = sd.freeList from rfl, hfl] at hc
      exact absurd hc (List.not_mem_nil c)
    · intro c hc
      rcases List.mem_append.mp hc with h1 | h1
      · exact Nat.lt_succ_of_lt (habnd _ h1)
      · rw [List.mem_singleton.mp h1]
        exact Nat.lt_succ_self _
    · exact count_alloc _ _ _ _ hnot hcnt
    · simp only [List.length_append, List.length_singleton]
      omega
  | cons c0 rest =>
    have hc0fl : c0 ∈ sd.freeList := by rw [hfl]; exact List.mem_cons_self c0 rest
    have hc0A : c0 ∉ sd.activeProxySet := hdisj c0 hc0fl
    have hfnd2 := List.nodup_cons.mp (hfl ▸ hfnd)
    refine ⟨c0,
      { sd with freeList := rest, activeProxySet := sd.activeProxySet ++ [c0] },
      ?_, ?_, ?_, ?_, ?_, ?_, ?_, ?_⟩
    · simp [tAllocate, poolAllocate, hfl, hc0A]
    · rw [List.nodup_append]
      exact ⟨hnd, List.nodup_singleton _,
        fun a ha hb => hc0A ((List.mem_singleton.mp hb) ▸ ha)⟩
    · exact hfnd2.2
    · intro c hc hmem
      rcases List.mem_append.mp hmem with h1 | h1
      · exact hdisj c (by rw [hfl]; exact List.mem_cons_of_mem c0 hc) h1
      · exact hfnd2.1 ((List.mem_singleton.mp h1) ▸ hc)
    · intro c hc
      exact hfbnd c (by rw [hfl]; exact List.mem_cons_of_mem c0 hc)
    · intro c hc
      rcases List.mem_append.mp hc with h1 | h1
      · exact habnd _ h1
      · rw [List.mem_singleton.mp h1]
        exact hfbnd c0 hc0fl
    · exact count_alloc _ _ _ _ hc0A hcnt
    · simp only [List.length_append, List.length_singleton]
      omega

lemma psInv_release {sd : PSStaticData} {issued rel : List Nat} {c : Nat}
    (h : psInv sd issued rel) (hc : c ∈ sd.activeProxySet) :
    tRelease ⟨some sd⟩ (some c)
      = some ⟨some { sd with activeProxySet := sd.activeProxySet.erase c, freeList := c :: sd.freeList }⟩
    ∧ psInv { sd with activeProxySet := sd.activeProxySet.erase c, freeList := c :: sd.freeList }
        issued (rel ++ [c]) := by
  obtain ⟨hnd, hfnd, hdisj, hfbnd, habnd, hcnt, hlen⟩ := h
  have hcfl : c ∉ sd.freeList := fun hm => hdisj c hm hc
  refine ⟨?_, ?_, ?_, ?_, ?_, ?_, ?_, ?_⟩
  · simp [tRelease, hc, poolRelease]
  · exact hnd.erase c
  · exact List.nodup_cons.mpr ⟨hcfl, hfnd⟩
  · intro x hx hmem
    rcases List.mem_cons.mp hx with h1 | h1
    · exact (hnd.mem_erase_iff.mp hmem).1 (h1 ▸ rfl)
    · exact hdisj x h1 (List.mem_of_mem_erase hmem)
  · intro x hx
    rcases List.mem_cons.mp hx with h1 | h1
    · rw [h1]; exact habnd c hc
    · exact hfbnd x h1
  · intro x hx
    exact habnd x (List.mem_of_mem_erase hx)
  · exact count_release _ _ _ _ hnd hc hcnt
  · have he : (sd.activeProxySet.erase c).length = sd.activeProxySet.length - 1 :=
      List.length_erase_of_mem hc
    have hpos : 0 < sd.activeProxySet.length := List.length_pos.mpr
      (fun hn => by rw [hn] at hc; exact absurd hc (List.not_mem_nil c))
    simp only [he, List.length_append, List.length_singleton]
    omega

lemma runOps_psInv :
    ∀ (ops : List POp) (sd : PSStaticData) (issued rel : List Nat),
      psInv sd issued rel →
      ∀ sFin out, runOps ⟨some sd⟩ ops = some (sFin, out) →
        ∃ sd2, sFin = ⟨some sd2⟩
          ∧ psInv sd2 (issued ++ out) (rel ++ releasedCells ops) := by
  intro ops
  induction ops with
  | nil =>
    intro sd issued rel hinv sFin out h
    simp only [runOps, Option.some.injEq, Prod.mk.injEq] at h
    obtain ⟨rfl, rfl⟩ := h
    exact ⟨sd, rfl, by simpa [releasedCells] using hinv⟩
  | cons op rest ih =>
    intro sd issued rel hinv sFin out h
    cases op with
    | alloc =>
      obtain ⟨c, sd2, halloc, hinv2⟩ := psInv_alloc hinv
      rw [runOps, halloc] at h
      simp only [Option.map_eq_some'] at h
      obtain ⟨⟨sF2, out2⟩, hrun, heq⟩ := h
      simp only [Prod.mk.injEq] at heq
      obtain ⟨rfl, rfl⟩ := heq
      obtain ⟨sd3, rfl, hinv3⟩ := ih sd2 (issued ++ [c]) rel hinv2 sF2 out2 hrun
      refine ⟨sd3, rfl, ?_⟩
      simpa [releasedCells, List.append_assoc] using hinv3
    | release c =>
      by_cases hc : c ∈ sd.activeProxySet
      · obtain ⟨hrel, hinv2⟩ := psInv_release hinv hc
        rw [runOps, hrel] at h
        simp only [Option.some_bind] at h
        obtain ⟨sd3, rfl, hinv3⟩ := ih _ issued (rel ++ [c]) hinv2 sFin out h
        refine ⟨sd3, rfl, ?_⟩
        simpa [releasedCells, List.append_assoc] using hinv3
      · have hnone : tRelease ⟨some sd⟩ (some c) = none := by
          simp [tRelease, hc]
        rw [runOps, hnone] at h
        simp at h

lemma psInv_init : psInv psNew [] [] := by
  refine ⟨?_, ?_, ?_, ?_, ?_, ?_, ?_⟩ <;> simp [psNew]

/-- C5: with memory tracking enabled, a cell is in the Proxy Store's active
live set iff it has been issued by `Allocate` more often than it has been
passed to `Release`, and after any successfully completed trace
`GetActiveProxyCount` equals the number of cells issued minus the number
released. -/
theorem c5_live_set_invariant (ops : List POp) (sFin : ProxyStoreState)
    (issued : List Nat)
    (h : runOps ⟨some psNew⟩ ops = some (sFin, issued)) :
    sFin.sm_pStaticData.isSome = true
    ∧ (∀ c, c ∈ (sFin.sm_pStaticData.getD psNew).activeProxySet ↔
        issued.count c = (releasedCells ops).count c + 1)
    ∧ tGetActiveProxyCount sFin
      = some (issued.length - (releasedCells ops).length) := by
  obtain ⟨sd, rfl, hinv⟩ := runOps_psInv ops psNew [] [] psInv_init sFin issued h
  obtain ⟨hnd, hfnd, hdisj, hfbnd, habnd, hcnt, hlen⟩ := hinv
  simp only [List.nil_append] at hcnt hlen
  refine ⟨rfl, fun c => ?_, ?_⟩
  · have hgd : ((⟨some sd⟩ : ProxyStoreState).sm_pStaticData.getD psNew) = sd := rfl
    rw [hgd]
    have hbase := hcnt c
    constructor
    · intro hm
      rw [if_pos hm] at hbase
      simpa using hbase
    · intro hq
      by_cases hm : c ∈ sd.activeProxySet
      · simpa using hm
      · rw [if_neg hm] at hbase
        omega
  · simp only [tGetActiveProxyCount, Option.map_some']
    congr 1
    omega

/-- Witness for C5: the trace alloc, alloc, release of the first cell. -/
theorem c5_witness :
    (⟨some ⟨2, [0], [1]⟩⟩ : ProxyStoreState).sm_pStaticData.isSome = true
    ∧ (1 ∈ ((⟨some ⟨2, [0], [1]⟩⟩ : ProxyStoreState).sm_pStaticData.getD psNew).activeProxySet ↔
        ([0, 1] : List Nat).count 1
          = (releasedCells [POp.alloc, POp.alloc, POp.release 0]).count 1 + 1)
    ∧ tGetActiveProxyCount ⟨some ⟨2, [0], [1]⟩⟩
      = some (([0, 1] : List Nat).length
          - (releasedCells [POp.alloc, POp.alloc, POp.release 0]).length) := by
  have h := c5_live_set_invariant [POp.alloc, POp.alloc, POp.release 0]
    ⟨some ⟨2, [0], [1]⟩⟩ [0, 1] (by decide)
  exact ⟨h.1, h.2.1 1, h.2.2⟩

end Helium
